import Mathlib

/-!
Verification of the decorest request-synthesis and response-dispatch engine
(`decorest/decorators.py`) against its natural-language specification.

The embedding models Python values by the inductive `PVal` (with Python
truthiness), Python `dict`s by association lists with unique keys, and the
relevant functions of `decorators.py` (`get_decor`, `__merge_args`, the
call-time override extraction loop, the kwargs finalization of
`HttpMethodDecorator.call`, and the response routing tail) as executable
Lean functions translated line by line from the source.
-/

namespace Decorest

/-- Model of a Python value, as far as the engine inspects values:
`None`, booleans, integers (standing in for all Python numbers), strings,
byte strings, lists and string-keyed dicts. -/
inductive PVal where
  | vnone
  | vbool (b : Bool)
  | vint (n : Int)
  | vstr (s : String)
  | vbytes (bs : List Nat)
  | vlist (xs : List PVal)
  | vdict (m : List (String × PVal))

/-- Python truthiness of a `PVal` (`bool(v)`). -/
def truthy : PVal → Bool
  | .vnone => false
  | .vbool b => b
  | .vint n => n ≠ 0
  | .vstr s => s ≠ ""
  | .vbytes bs => !bs.isEmpty
  | .vlist xs => !xs.isEmpty
  | .vdict m => !m.isEmpty

/-- Python `isinstance(v, dict)`. -/
def isDictV : PVal → Bool
  | .vdict _ => true
  | _ => false

/-- Python `isinstance(v, str)`. -/
def isStrV : PVal → Bool
  | .vstr _ => true
  | _ => false

/-- Python `isinstance(v, numbers.Number)`; in Python `bool` is an `Integral`,
hence a `Number`. -/
def isNumberV : PVal → Bool
  | .vint _ => true
  | .vbool _ => true
  | _ => false

/-- Python `isinstance(v, bool)`. -/
def isBoolV : PVal → Bool
  | .vbool _ => true
  | _ => false

/-- Python `dict` lookup `m.get(k)` on an association-list model. -/
def alGet {α : Type} : List (String × α) → String → Option α
  | [], _ => none
  | (k, v) :: rest, key => if k = key then some v else alGet rest key

/-- Python `dict` assignment `m[k] = v`: replaces the value in place when the
key exists, else appends (Python dicts preserve insertion order). -/
def alSet {α : Type} : List (String × α) → String → α → List (String × α)
  | [], key, val => [(key, val)]
  | (k, v) :: rest, key, val =>
    if k = key then (k, val) :: rest else (k, v) :: alSet rest key val

/-- Python `del m[k]` / `m.pop(k, None)`: removes the entry for `key`
(the first one; lists modelling dicts have unique keys). -/
def alDel {α : Type} : List (String × α) → String → List (String × α)
  | [], _ => []
  | (k, v) :: rest, key =>
    if k = key then rest else (k, v) :: alDel rest key

/-- Lower-cases a header key (the `CaseInsensitiveDict` normalization),
defined directly on the character list so that it evaluates by kernel
reduction. -/
def lowerKey (s : String) : String :=
  ⟨s.data.map Char.toLower⟩

/-- Case-insensitive header lookup (`CaseInsensitiveDict`): header maps are
modelled with keys normalized to lower case, and all accesses lower the key. -/
def hdrGet (h : List (String × PVal)) (k : String) : Option PVal :=
  alGet h (lowerKey k)

/-- Case-insensitive header assignment; stores the key lower-cased. -/
def hdrSet (h : List (String × PVal)) (k : String) (v : PVal) :
    List (String × PVal) :=
  alSet h (lowerKey k) v

/-- Case-insensitive header removal (`headers.pop(k, None)`). -/
def hdrDel (h : List (String × PVal)) (k : String) : List (String × PVal) :=
  alDel h (lowerKey k)

/-- Modelled from the spec: `merge_dicts` from `decorest.utils` (the module is
not part of the sources at hand). Per §8 of the spec, merging two maps yields
the union of their keys with the second map's value winning on a collision. -/
def merge_dicts {α : Type} (a b : List (String × α)) : List (String × α) :=
  b.foldl (fun acc kv => alSet acc kv.1 kv.2) a

/-- Modelled from the spec: `merge_dicts` on case-insensitive header maps;
keys of the second map are normalized to lower case on the way in. -/
def mergeHeaders (a b : List (String × PVal)) : List (String × PVal) :=
  b.foldl (fun acc kv => alSet acc (lowerKey kv.1) kv.2) a

mutual

/-- Model of `json.dumps` on the modelled values (only its use at
`decorators.py:418` matters to the claims: a dict body with JSON
content-type becomes a string). -/
def jsonEncode : PVal → String
  | .vnone => "null"
  | .vbool b => cond b "true" "false"
  | .vint n => toString n
  | .vstr s => "\x22" ++ s ++ "\x22"
  | .vbytes bs => toString bs
  | .vlist xs => "[" ++ jsonEncodeList xs ++ "]"
  | .vdict m => "\x7b" ++ jsonEncodeDict m ++ "\x7d"

/-- Encodes the elements of a JSON array. -/
def jsonEncodeList : List PVal → String
  | [] => ""
  | [x] => jsonEncode x
  | x :: y :: xs => jsonEncode x ++ "," ++ jsonEncodeList (y :: xs)

/-- Encodes the entries of a JSON object. -/
def jsonEncodeDict : List (String × PVal) → String
  | [] => ""
  | [(k, v)] => "\x22" ++ k ++ "\x22:" ++ jsonEncode v
  | (k, v) :: e :: xs =>
    "\x22" ++ k ++ "\x22:" ++ jsonEncode v ++ "," ++ jsonEncodeDict (e :: xs)

end

/-- Model of `json.dumps(body_content)` as a `PVal` (always a string). -/
def jsonDumpsP (v : PVal) : PVal := .vstr (jsonEncode v)

/-- A declaration (class or function) as seen by `get_decor`: `none` models
an object without the `__decorest__` attribute, `some d` an object whose
`__decorest__` dict is `d`. -/
def Decors : Type := Option (List (String × PVal))

/-- Model of `get_decor` (`decorators.py:72-87`): returns the stored value when the
declaration has a `__decorest__` dict and `d.get(name)` is truthy, otherwise
Python `None` (the code tests `getattr(t, DECOR_KEY).get(name)` for
truthiness, so a stored falsy value also yields `None`). -/
def get_decor (t : Decors) (name : String) : PVal :=
  match t with
  | some d =>
    match alGet d name with
    | some v => if truthy v then v else .vnone
    | none => .vnone
  | none => .vnone

/-- Timeout resolution (`decorators.py:317-320`):
`request_timeout = get_decor(cls, 'timeout')`, then the method-level value
replaces it if `get_decor(func, 'timeout')` is truthy (`if get_decor(...)`;
`get_decor` only ever returns `None` or a truthy value). -/
def resolveTimeout (cls func : Decors) : PVal :=
  match get_decor func "timeout" with
  | .vnone => get_decor cls "timeout"
  | v => v

/-- Stream-flag resolution (`decorators.py:322-325`):
`is_stream = get_decor(func, 'stream')`; if that `is None`, fall back to the
class-level value. -/
def resolveStream (cls func : Decors) : PVal :=
  match get_decor func "stream" with
  | .vnone => get_decor cls "stream"
  | v => v

/-- The loop of `HttpMethodDecorator.__merge_args`
(`decorators.py:558-561`): for each declared (argument-name, parameter-name)
pair, `if args_dict.get(arg): parameters[param] = args_dict[arg]` — the
entry is added only when the bound value exists and is truthy. -/
def mergeArgsLoop (args_dict : List (String × PVal)) :
    List (String × String) → List (String × PVal) → List (String × PVal)
  | [], parameters => parameters
  | (arg, param) :: rest, parameters =>
    match alGet args_dict arg with
    | some v =>
      if truthy v then mergeArgsLoop args_dict rest (alSet parameters param v)
      else mergeArgsLoop args_dict rest parameters
    | none => mergeArgsLoop args_dict rest parameters

/-- Model of `HttpMethodDecorator.__merge_args` (`decorators.py:542-562`), with
`args_decor` standing for `get_decor(func, decor)`, the decorator-declared
(argument-name → parameter-name) dict; the `query`/`form`/`multipart`
decorators (`decorators.py:113-164`) only ever store string values in it.
`get_decor` returning `None` for an absent or empty decor dict yields the
same result as iterating an empty dict, so the empty list covers it. -/
def merge_args (args_dict : List (String × PVal))
    (args_decor : List (String × String)) : List (String × PVal) :=
  mergeArgsLoop args_dict args_decor []

/-- Model of `DECOR_LIST` (`decorators.py:40-43`): the reserved call-time override
keys, in the order the extraction loop visits them. -/
def DECOR_LIST : List String :=
  ["header", "query", "form", "multipart", "on", "accept", "content",
   "timeout", "stream", "body"]

/-- The `TypeError` raised by `HttpMethodDecorator.__validate_decor`
(`decorators.py:527-540`): carries the offending key and the name of the
expected class (the message is
`"{decor} value must be an instance of {cls.__name__}"`). -/
inductive PyTypeError where
  | typeError (key : String) (expected : String)
deriving DecidableEq

/-- The per-call mutable values the override-extraction loop of
`HttpMethodDecorator.call` (`decorators.py:333-380`) updates. The `on`
handler map is kept at the data level (status keys rendered as strings);
the claims about handler invocation use the separate routing model below. -/
structure SynthState where
  header_parameters : List (String × PVal)
  query_parameters : List (String × PVal)
  form_parameters : List (String × PVal)
  multipart_parameters : List (String × PVal)
  on_handlers : List (String × PVal)
  request_timeout : PVal
  is_stream : PVal
  body_content : PVal

/-- The entries of a dict value (used only after an `isinstance(v, dict)`
check has succeeded). -/
def asDict : PVal → List (String × PVal)
  | .vdict m => m
  | _ => []

/-- The expected class for each reserved override key, as hard-coded in the
branches of `decorators.py:333-378`; `body` is consumed without any
`__validate_decor` call, so any value passes. -/
def overrideCheck (decor : String) (v : PVal) : Bool :=
  if decor = "header" then isDictV v
  else if decor = "query" then isDictV v
  else if decor = "form" then isDictV v
  else if decor = "multipart" then isDictV v
  else if decor = "on" then isDictV v
  else if decor = "accept" then isStrV v
  else if decor = "content" then isStrV v
  else if decor = "timeout" then isNumberV v
  else if decor = "stream" then isBoolV v
  else true

/-- The `cls.__name__` of the expected class for each validated override key. -/
def overrideExpected (decor : String) : String :=
  if decor = "header" then "dict"
  else if decor = "query" then "dict"
  else if decor = "form" then "dict"
  else if decor = "multipart" then "dict"
  else if decor = "on" then "dict"
  else if decor = "accept" then "str"
  else if decor = "content" then "str"
  else if decor = "timeout" then "Number"
  else if decor = "stream" then "bool"
  else ""

/-- The state update a validated override performs
(`decorators.py:336-378`): dict-valued overrides merge via `merge_dicts`;
`accept`/`content` assign the `accept` / `content-type` header;
`timeout`/`stream`/`body` replace the corresponding scalar. -/
def applyOverrideBody (decor : String) (v : PVal) (st : SynthState) :
    SynthState :=
  if decor = "header" then
    { st with header_parameters := mergeHeaders st.header_parameters (asDict v) }
  else if decor = "query" then
    { st with query_parameters := merge_dicts st.query_parameters (asDict v) }
  else if decor = "form" then
    { st with form_parameters := merge_dicts st.form_parameters (asDict v) }
  else if decor = "multipart" then
    { st with multipart_parameters := merge_dicts st.multipart_parameters (asDict v) }
  else if decor = "on" then
    { st with on_handlers := merge_dicts st.on_handlers (asDict v) }
  else if decor = "accept" then
    { st with header_parameters := hdrSet st.header_parameters "accept" v }
  else if decor = "content" then
    { st with header_parameters := hdrSet st.header_parameters "content-type" v }
  else if decor = "timeout" then
    { st with request_timeout := v }
  else if decor = "stream" then
    { st with is_stream := v }
  else if decor = "body" then
    { st with body_content := v }
  else st

/-- One branch of the override-extraction loop (`decorators.py:336-380`):
`__validate_decor` checks the kwarg value's type first (raising `TypeError`
on a mismatch; `body` is taken without validation), then the value is
folded into the synthesis state. -/
def applyOverride (decor : String) (v : PVal) (st : SynthState) :
    Except PyTypeError SynthState :=
  if overrideCheck decor v = true then .ok (applyOverrideBody decor v st)
  else .error (.typeError decor (overrideExpected decor))

/-- The override-extraction loop (`decorators.py:333-380`):
`for decor in DECOR_LIST: if decor in kwargs: ...` — each reserved key
present in the call's kwargs is validated, folded into the state and then
deleted from the kwargs (`del kwargs[decor]`). Returns the leftover kwargs
(those forwarded to the transport) and the updated state, or the first
`TypeError`. -/
def extractOverrides : List String → List (String × PVal) → SynthState →
    Except PyTypeError (List (String × PVal) × SynthState)
  | [], kw, st => .ok (kw, st)
  | d :: rest, kw, st =>
    match alGet kw d with
    | none => extractOverrides rest kw st
    | some v =>
      match applyOverride d v st with
      | .ok st' => extractOverrides rest (alDel kw d) st'
      | .error e => .error e

/-- The two supported transport backends (`rest_client._backend()`). -/
inductive Backend where
  | requests
  | httpx
deriving DecidableEq

/-- The HTTP verbs of `decorest.types.HttpMethod`; all seven are in the
supported set checked at `decorators.py:457-461`, so the `ValueError` branch
is unreachable for them. -/
inductive HMethod where
  | GET
  | POST
  | PUT
  | PATCH
  | DELETE
  | HEAD
  | OPTIONS
deriving DecidableEq

/-- Model of `is_multipart_request` (`decorators.py:387-395`): true when multipart
parameters were resolved; otherwise, for the `requests` backend, when the
caller passed a `data` kwarg (one that is not a `MultipartEncoder`; the
encoder type is not modelled, so a caller `data` kwarg counts), and for
`httpx` when the caller passed a `files` kwarg. -/
def isMultipartRequest (backend : Backend)
    (multipart_parameters : List (String × PVal))
    (kw : List (String × PVal)) : Bool :=
  if !multipart_parameters.isEmpty then true
  else if backend = .requests then (alGet kw "data").isSome
  else (alGet kw "files").isSome

/-- Whether the resolved `content-type` header equals `application/json`
(`decorators.py:416`). -/
def contentTypeIsJson (hp : List (String × PVal)) : Bool :=
  match hdrGet hp "content-type" with
  | some (.vstr s) => s = "application/json"
  | _ => false

/-- Model of `if c: kwargs[k] = v` — a conditionally applied kwargs assignment, the
shape of every `kwargs[...] = ...` statement in `decorators.py:387-441`. -/
def addIf (c : Bool) (k : String) (v : PVal) (kw : List (String × PVal)) :
    List (String × PVal) :=
  if c then alSet kw k v else kw

/-- Model of `if c: del kwargs[k]` (`decorators.py:466`). -/
def delIf (c : Bool) (k : String) (kw : List (String × PVal)) :
    List (String × PVal) :=
  if c then alDel kw k else kw

/-- Model of `if c: kwargs['headers'].pop('content-type', None)` guarded by
`'headers' in kwargs` (`decorators.py:469-472`). -/
def popContentTypeIf (c : Bool) (kw : List (String × PVal)) :
    List (String × PVal) :=
  if c then
    match alGet kw "headers" with
    | some (.vdict h) => alSet kw "headers" (.vdict (hdrDel h "content-type"))
    | _ => kw
  else kw

/-- The content-type and accept defaulting steps
(`decorators.py:397-404`): assume `application/json` content-type when none
was resolved and the request is not multipart; assume `application/json`
accept when none was resolved. -/
def defaultHeaders (is_multipart : Bool) (hp0 : List (String × PVal)) :
    List (String × PVal) :=
  let hp := if (hdrGet hp0 "content-type").isNone && !is_multipart then
      hdrSet hp0 "content-type" (.vstr "application/json")
    else hp0
  if (hdrGet hp "accept").isNone then
    hdrSet hp "accept" (.vstr "application/json")
  else hp

/-- Body serialization (`decorators.py:415-418`): a dict body under JSON
content-type is serialized with `json.dumps`; any other body is forwarded
as is. -/
def serializeBody (hp : List (String × PVal)) (body : PVal) : PVal :=
  if contentTypeIsJson hp && isDictV body then jsonDumpsP body else body

/-- Kwargs finalization of `HttpMethodDecorator.call`
(`decorators.py:387-475`, after override extraction): assembles the keyword
set handed to the transport. Follows the source order: multipart `files`
(387-389), content-type/accept defaults (398-404), `auth` (409-410),
`timeout` (412-413), body (415-426: `json.dumps` of a dict body under JSON
content-type; httpx puts a dict body under `data` and any other body under
`content`, requests always under `data` — rendered here as two exclusive
guarded assignments), query `params` (428-429), the form content-type force
and `data` (431-435), `stream` (437-438), `headers` (440-441); finally the
dispatch-side branches (463-472) — `del kwargs['stream']` for a streaming
GET on httpx, otherwise `kwargs['headers'].pop('content-type', None)` for a
POST multipart request. -/
def finalizeKwargs (backend : Backend) (method : HMethod) (auth : PVal)
    (st : SynthState) (kwargs0 : List (String × PVal)) :
    List (String × PVal) :=
  let is_multipart := isMultipartRequest backend st.multipart_parameters kwargs0
  let kw := addIf (!st.multipart_parameters.isEmpty) "files"
    (.vdict st.multipart_parameters) kwargs0
  let hp := defaultHeaders is_multipart st.header_parameters
  let kw := addIf (truthy auth) "auth" auth kw
  let kw := addIf (truthy st.request_timeout) "timeout" st.request_timeout kw
  let bc := serializeBody hp st.body_content
  let kw := addIf (truthy st.body_content &&
    (decide (backend = Backend.requests) || isDictV bc)) "data" bc kw
  let kw := addIf (truthy st.body_content &&
    (decide (backend = Backend.httpx) && !isDictV bc)) "content" bc kw
  let kw := addIf (!st.query_parameters.isEmpty) "params"
    (.vdict st.query_parameters) kw
  let hp := if !st.form_parameters.isEmpty then
      hdrSet hp "content-type" (.vstr "application/x-www-form-urlencoded")
    else hp
  let kw := addIf (!st.form_parameters.isEmpty) "data"
    (.vdict st.form_parameters) kw
  let kw := addIf (truthy st.is_stream) "stream" st.is_stream kw
  let kw := addIf (!hp.isEmpty) "headers" (.vdict hp) kw
  let streamDel := decide (backend = Backend.httpx) &&
    decide (method = HMethod.GET) && truthy st.is_stream
  let kw := delIf streamDel "stream" kw
  popContentTypeIf (!streamDel && (decide (method = HMethod.POST) &&
    is_multipart)) kw

/-- The header dict inside a finalized kwargs set (empty when none was
forwarded). -/
def finalHeaders (kw : List (String × PVal)) : List (String × PVal) :=
  match alGet kw "headers" with
  | some (.vdict h) => h
  | _ => []

/-- A key of the status-handler table: a concrete integer status code, or
`HttpStatus.ANY` (registered by `@on(..., handler)`). -/
inductive StatusKey where
  | code (n : Nat)
  | any
deriving DecidableEq

/-- A Python exception, as far as the routing tail distinguishes them:
the `HTTPError` raised by `raise_for_status` for a 4xx/5xx status, a
transport-level failure, or an exception raised inside user code (a status
handler). -/
inductive PyExc where
  | httpStatusError (status : Nat)
  | transportError (msg : String)
  | userError (msg : String)
deriving DecidableEq

/-- The response object returned by the transport, at the interface the
routing tail reads: `status_code`, case-insensitively keyed `headers`
(modelled lower-cased), `text`, `content` (bytes) and `jsonVal`, the value
`result.json()` parses out of the body (parsing itself is not modelled). -/
structure Response where
  status_code : Nat
  headers : List (String × String)
  text : String
  content : List Nat
  jsonVal : PVal

/-- A status handler: receives the raw response, returns a value or raises. -/
def Handler : Type := Response → Except PyExc PVal

/-- The merged `on_handlers` table (`@on` decorators plus call-time `on`
overrides). -/
def HandlerTable : Type := List (StatusKey × Handler)

/-- What a call returns to the caller: a value, the raw response (streaming),
an exception wrapped in `HTTPErrorWrapper` carrying its original cause, or
an exception propagated unmodified. -/
inductive CallOutcome where
  | ok (v : PVal)
  | okRaw (r : Response)
  | errorWrapped (cause : PyExc)
  | raised (e : PyExc)

/-- Model of `status in on_handlers` / `on_handlers[status]` — lookup in the handler
table (the Python `on_handlers and ...` truthiness guard is subsumed: a
successful lookup implies the table is non-empty). -/
def handlerLookup (tbl : HandlerTable) (k : StatusKey) : Option Handler :=
  match tbl with
  | [] => none
  | (k', h) :: rest => if k' = k then some h else handlerLookup rest k

/-- Invoking a status handler (`on_handlers[...](result)`,
`decorators.py:481/484`): the handler's return value is returned; an
exception it raises propagates unmodified — there is no `try` around these
two calls. -/
def runHandler (h : Handler) (r : Response) : CallOutcome :=
  match h r with
  | .ok v => .ok v
  | .error e => .raised e

/-- The default response handler (`decorators.py:491-506`):
`result.raise_for_status()` raises exactly when `400 ≤ status_code < 600`
(both backends), and that exception is wrapped in `HTTPErrorWrapper`
(`decorators.py:492-495`); on success decode a
non-empty body by content-type (`application/json` → `result.json()`,
`application/octet-stream` → `result.content`, anything else →
`result.text`); an empty body returns `None`. -/
def defaultResponseHandler (r : Response) : CallOutcome :=
  if 400 ≤ r.status_code ∧ r.status_code < 600 then
    .errorWrapped (.httpStatusError r.status_code)
  else if r.text ≠ "" then
    let content_type := alGet r.headers "content-type"
    if content_type = some "application/json" then .ok r.jsonVal
    else if content_type = some "application/octet-stream" then
      .ok (.vbytes r.content)
    else .ok (.vstr r.text)
  else .ok .vnone

/-- The response-routing tail of `HttpMethodDecorator.call`
(`decorators.py:479-506`): an exact status-code handler first, else the
`HttpStatus.ANY` handler, else the raw response if streaming was requested,
else the default handler. -/
def routeResponse (on_handlers : HandlerTable) (is_stream : Bool)
    (r : Response) : CallOutcome :=
  match handlerLookup on_handlers (.code r.status_code) with
  | some h => runHandler h r
  | none =>
    match handlerLookup on_handlers .any with
    | some h => runHandler h r
    | none =>
      if is_stream then .okRaw r
      else defaultResponseHandler r

/-- Dispatch plus routing (`decorators.py:463-506`): every exception the
transport raises inside the `try` block is re-raised as
`HTTPErrorWrapper(e)` (`decorators.py:476-477`); a successful dispatch
proceeds to response routing. -/
def engineExchange (dispatchResult : Except PyExc Response)
    (on_handlers : HandlerTable) (is_stream : Bool) : CallOutcome :=
  match dispatchResult with
  | .error e => .errorWrapped e
  | .ok r => routeResponse on_handlers is_stream r

/-! ### Association-list lemmas -/

theorem alGet_alSet_self {α : Type} (m : List (String × α)) (k : String)
    (v : α) : alGet (alSet m k v) k = some v := by
  induction m with
  | nil => simp [alSet, alGet]
  | cons kv rest ih =>
    obtain ⟨k0, v0⟩ := kv
    by_cases h : k0 = k
    · simp [alSet, alGet, h]
    · simp [alSet, alGet, h, ih]

theorem alGet_alSet_ne {α : Type} (m : List (String × α)) (k k' : String)
    (v : α) (h : k' ≠ k) : alGet (alSet m k v) k' = alGet m k' := by
  induction m with
  | nil =>
    have hne : k ≠ k' := fun hh => h hh.symm
    simp [alSet, alGet, hne]
  | cons kv rest ih =>
    obtain ⟨k0, v0⟩ := kv
    by_cases hk : k0 = k
    · subst hk
      have hne : k0 ≠ k' := fun hh => h hh.symm
      simp [alSet, alGet, hne]
    · by_cases hk' : k0 = k'
      · subst hk'
        simp [alSet, alGet, hk]
      · simp [alSet, alGet, hk, hk', ih]

theorem alSet_ne_nil {α : Type} (m : List (String × α)) (k : String)
    (v : α) : alSet m k v ≠ [] := by
  cases m with
  | nil => simp [alSet]
  | cons kv rest =>
    obtain ⟨k0, v0⟩ := kv
    by_cases h : k0 = k <;> simp [alSet, h]

theorem alGet_alDel_ne {α : Type} (m : List (String × α)) (k k' : String)
    (h : k' ≠ k) : alGet (alDel m k) k' = alGet m k' := by
  induction m with
  | nil => simp [alDel]
  | cons kv rest ih =>
    obtain ⟨k0, v0⟩ := kv
    by_cases hk : k0 = k
    · subst hk
      have hne : k0 ≠ k' := fun hh => h hh.symm
      simp [alDel, alGet, hne]
    · by_cases hk' : k0 = k'
      · subst hk'
        simp [alDel, alGet, hk]
      · simp [alDel, alGet, hk, hk', ih]

theorem alDel_of_alGet_none {α : Type} (m : List (String × α)) (k : String)
    (h : alGet m k = none) : alDel m k = m := by
  induction m with
  | nil => simp [alDel]
  | cons kv rest ih =>
    obtain ⟨k0, v0⟩ := kv
    by_cases hk : k0 = k
    · simp [alGet, hk] at h
    · simp only [alGet, if_neg hk] at h
      simp [alDel, hk, ih h]

/-- The keys of an association list. -/
def alKeys {α : Type} (m : List (String × α)) : List String :=
  m.map Prod.fst

theorem alGet_eq_none_of_not_mem_keys {α : Type} (m : List (String × α))
    (k : String) (h : k ∉ alKeys m) : alGet m k = none := by
  induction m with
  | nil => simp [alGet]
  | cons kv rest ih =>
    obtain ⟨k0, v0⟩ := kv
    simp only [alKeys, List.map, List.mem_cons] at h
    push_neg at h
    have hk : k0 ≠ k := fun hh => h.1 hh.symm
    simp only [alGet, if_neg hk]
    exact ih (by simpa [alKeys] using h.2)

theorem alKeys_alDel_sublist {α : Type} (m : List (String × α)) (k : String) :
    (alKeys (alDel m k)).Sublist (alKeys m) := by
  induction m with
  | nil => simp [alDel, alKeys]
  | cons kv rest ih =>
    obtain ⟨k0, v0⟩ := kv
    by_cases hk : k0 = k
    · simp only [alDel, if_pos hk, alKeys, List.map]
      exact List.sublist_cons_self _ _
    · simp only [alDel, if_neg hk, alKeys, List.map]
      exact List.Sublist.cons₂ _ ih

theorem alDel_nodupKeys {α : Type} (m : List (String × α)) (k : String)
    (h : (alKeys m).Nodup) : (alKeys (alDel m k)).Nodup :=
  (alKeys_alDel_sublist m k).nodup h

theorem alGet_alDel_self_of_nodup {α : Type} (m : List (String × α))
    (k : String) (h : (alKeys m).Nodup) : alGet (alDel m k) k = none := by
  induction m with
  | nil => simp [alDel, alGet]
  | cons kv rest ih =>
    obtain ⟨k0, v0⟩ := kv
    simp only [alKeys, List.map, List.nodup_cons] at h
    by_cases hk : k0 = k
    · subst hk
      simp only [alDel, if_pos rfl]
      exact alGet_eq_none_of_not_mem_keys rest k0 h.1
    · simp only [alDel, if_neg hk, alGet, if_neg hk]
      exact ih h.2

theorem alGet_none_of_del {α : Type} (m : List (String × α)) (k k' : String)
    (h : alGet m k' = none) : alGet (alDel m k) k' = none := by
  by_cases hk : k' = k
  · subst hk
    rw [alDel_of_alGet_none m k' h]
    exact h
  · rw [alGet_alDel_ne m k k' hk]
    exact h

/-! ### Override-extraction lemmas -/

theorem applyOverride_ok_of_check (d : String) (v : PVal) (st : SynthState)
    (h : overrideCheck d v = true) :
    ∃ st', applyOverride d v st = .ok st' := by
  refine ⟨applyOverrideBody d v st, ?_⟩
  simp [applyOverride, h]

theorem applyOverride_error_of_bad (d : String) (v : PVal) (st : SynthState)
    (h : overrideCheck d v = false) :
    applyOverride d v st = .error (.typeError d (overrideExpected d)) := by
  simp [applyOverride, h]

theorem applyOverrideBody_timeout_invariant (d : String) (v : PVal)
    (st : SynthState) (hd : d ≠ "timeout") :
    (applyOverrideBody d v st).request_timeout = st.request_timeout := by
  unfold applyOverrideBody
  split_ifs <;> simp_all

theorem applyOverride_timeout_invariant (d : String) (v : PVal)
    (st st' : SynthState) (hd : d ≠ "timeout")
    (h : applyOverride d v st = .ok st') :
    st'.request_timeout = st.request_timeout := by
  unfold applyOverride at h
  split_ifs at h
  cases h
  exact applyOverrideBody_timeout_invariant d v st hd

theorem extract_preserve_none (ds : List String) (kw : List (String × PVal))
    (st : SynthState) (kw' : List (String × PVal)) (st' : SynthState)
    (x : String) (hx : alGet kw x = none)
    (h : extractOverrides ds kw st = .ok (kw', st')) : alGet kw' x = none := by
  induction ds generalizing kw st with
  | nil =>
    simp only [extractOverrides, Except.ok.injEq, Prod.mk.injEq] at h
    rw [← h.1]
    exact hx
  | cons d rest ih =>
    cases hg : alGet kw d with
    | none =>
      simp only [extractOverrides, hg] at h
      exact ih kw st hx h
    | some v =>
      cases ha : applyOverride d v st with
      | ok st1 =>
        simp only [extractOverrides, hg, ha] at h
        exact ih (alDel kw d) st1 (alGet_none_of_del kw d x hx) h
      | error e =>
        simp only [extractOverrides, hg, ha] at h
        cases h

theorem extract_nodup (ds : List String) (kw : List (String × PVal))
    (st : SynthState) (kw' : List (String × PVal)) (st' : SynthState)
    (hn : (alKeys kw).Nodup)
    (h : extractOverrides ds kw st = .ok (kw', st')) : (alKeys kw').Nodup := by
  induction ds generalizing kw st with
  | nil =>
    simp only [extractOverrides, Except.ok.injEq, Prod.mk.injEq] at h
    rw [← h.1]
    exact hn
  | cons d rest ih =>
    cases hg : alGet kw d with
    | none =>
      simp only [extractOverrides, hg] at h
      exact ih kw st hn h
    | some v =>
      cases ha : applyOverride d v st with
      | ok st1 =>
        simp only [extractOverrides, hg, ha] at h
        exact ih (alDel kw d) st1 (alDel_nodupKeys kw d hn) h
      | error e =>
        simp only [extractOverrides, hg, ha] at h
        cases h

theorem extract_removes (ds : List String) (kw : List (String × PVal))
    (st : SynthState) (kw' : List (String × PVal)) (st' : SynthState)
    (hn : (alKeys kw).Nodup)
    (h : extractOverrides ds kw st = .ok (kw', st')) :
    ∀ d ∈ ds, alGet kw' d = none := by
  induction ds generalizing kw st with
  | nil => intro d hd; cases hd
  | cons d0 rest ih =>
    intro d hd
    cases hg : alGet kw d0 with
    | none =>
      simp only [extractOverrides, hg] at h
      rcases List.mem_cons.mp hd with hd0 | hdrest
      · subst hd0
        exact extract_preserve_none rest kw st kw' st' d hg h
      · exact ih kw st hn h d hdrest
    | some v =>
      cases ha : applyOverride d0 v st with
      | ok st1 =>
        simp only [extractOverrides, hg, ha] at h
        rcases List.mem_cons.mp hd with hd0 | hdrest
        · subst hd0
          exact extract_preserve_none rest (alDel kw d) st1 kw' st' d
            (alGet_alDel_self_of_nodup kw d hn) h
        · exact ih (alDel kw d0) st1 (alDel_nodupKeys kw d0 hn) h d hdrest
      | error e =>
        simp only [extractOverrides, hg, ha] at h
        cases h

theorem extract_timeout_invariant (ds : List String)
    (kw : List (String × PVal)) (st : SynthState)
    (kw' : List (String × PVal)) (st' : SynthState)
    (hx : alGet kw "timeout" = none)
    (h : extractOverrides ds kw st = .ok (kw', st')) :
    st'.request_timeout = st.request_timeout := by
  induction ds generalizing kw st with
  | nil =>
    simp only [extractOverrides, Except.ok.injEq, Prod.mk.injEq] at h
    rw [← h.2]
  | cons d rest ih =>
    cases hg : alGet kw d with
    | none =>
      simp only [extractOverrides, hg] at h
      exact ih kw st hx h
    | some v =>
      have hd : d ≠ "timeout" := by
        intro hdt
        subst hdt
        rw [hx] at hg
        cases hg
      cases ha : applyOverride d v st with
      | ok st1 =>
        simp only [extractOverrides, hg, ha] at h
        have h1 := ih (alDel kw d) st1 (alGet_none_of_del kw d _ hx) h
        rw [h1, applyOverride_timeout_invariant d v st st1 hd ha]
      | error e =>
        simp only [extractOverrides, hg, ha] at h
        cases h

theorem extract_error_of_bad (ds : List String) (kw : List (String × PVal))
    (st : SynthState) (hds : ds.Nodup)
    (hbad : ∃ d ∈ ds, ∃ v, alGet kw d = some v ∧ overrideCheck d v = false) :
    ∃ d' v', d' ∈ ds ∧ alGet kw d' = some v' ∧ overrideCheck d' v' = false ∧
      extractOverrides ds kw st =
        .error (.typeError d' (overrideExpected d')) := by
  induction ds generalizing kw st with
  | nil =>
    obtain ⟨d, hd, _⟩ := hbad
    cases hd
  | cons d0 rest ih =>
    obtain ⟨d, hd, v, hgv, hcv⟩ := hbad
    have hnd : d0 ∉ rest := (List.nodup_cons.mp hds).1
    have hrest : rest.Nodup := (List.nodup_cons.mp hds).2
    cases hg : alGet kw d0 with
    | none =>
      have hdne : d ≠ d0 := by
        intro hdd; subst hdd; rw [hg] at hgv; cases hgv
      have hdr : d ∈ rest := by
        rcases List.mem_cons.mp hd with h0 | hr
        · exact absurd h0 hdne
        · exact hr
      obtain ⟨d', v', hd', hg', hc', he'⟩ :=
        ih kw st hrest ⟨d, hdr, v, hgv, hcv⟩
      refine ⟨d', v', List.mem_cons_of_mem _ hd', hg', hc', ?_⟩
      simp only [extractOverrides, hg]
      exact he'
    | some v0 =>
      cases hc0 : overrideCheck d0 v0 with
      | false =>
        refine ⟨d0, v0, List.mem_cons_self _ _, hg, hc0, ?_⟩
        simp only [extractOverrides, hg,
          applyOverride_error_of_bad d0 v0 st hc0]
      | true =>
        have hdne : d ≠ d0 := by
          intro hdd
          subst hdd
          rw [hg] at hgv
          cases hgv
          rw [hc0] at hcv
          cases hcv
        have hdr : d ∈ rest := by
          rcases List.mem_cons.mp hd with h0 | hr
          · exact absurd h0 hdne
          · exact hr
        obtain ⟨st1, ha⟩ := applyOverride_ok_of_check d0 v0 st hc0
        have hgd : alGet (alDel kw d0) d = some v := by
          rw [alGet_alDel_ne kw d0 d hdne]
          exact hgv
        obtain ⟨d', v', hd', hg', hc', he'⟩ :=
          ih (alDel kw d0) st1 hrest ⟨d, hdr, v, hgd, hcv⟩
        have hd'ne : d' ≠ d0 := fun hh => hnd (hh ▸ hd')
        refine ⟨d', v', List.mem_cons_of_mem _ hd', ?_, hc', ?_⟩
        · rw [← alGet_alDel_ne kw d0 d' hd'ne]
          exact hg'
        · simp only [extractOverrides, hg, ha]
          exact he'

/-! ### `__merge_args` loop lemmas -/

theorem mergeArgsLoop_cons_none (args_dict : List (String × PVal))
    (a0 p0 : String) (rest : List (String × String))
    (acc : List (String × PVal)) (hg : alGet args_dict a0 = none) :
    mergeArgsLoop args_dict ((a0, p0) :: rest) acc =
      mergeArgsLoop args_dict rest acc := by
  simp [mergeArgsLoop, hg]

theorem mergeArgsLoop_cons_truthy (args_dict : List (String × PVal))
    (a0 p0 : String) (rest : List (String × String))
    (acc : List (String × PVal)) (v0 : PVal)
    (hg : alGet args_dict a0 = some v0) (ht : truthy v0 = true) :
    mergeArgsLoop args_dict ((a0, p0) :: rest) acc =
      mergeArgsLoop args_dict rest (alSet acc p0 v0) := by
  simp [mergeArgsLoop, hg, ht]

theorem mergeArgsLoop_cons_falsy (args_dict : List (String × PVal))
    (a0 p0 : String) (rest : List (String × String))
    (acc : List (String × PVal)) (v0 : PVal)
    (hg : alGet args_dict a0 = some v0) (ht : truthy v0 = false) :
    mergeArgsLoop args_dict ((a0, p0) :: rest) acc =
      mergeArgsLoop args_dict rest acc := by
  simp [mergeArgsLoop, hg, ht]

theorem mergeArgsLoop_sound (args_dict : List (String × PVal))
    (pairs : List (String × String)) (acc : List (String × PVal))
    (p : String) (v : PVal)
    (h : alGet (mergeArgsLoop args_dict pairs acc) p = some v) :
    alGet acc p = some v ∨
      ∃ a, (a, p) ∈ pairs ∧ alGet args_dict a = some v ∧ truthy v = true := by
  induction pairs generalizing acc with
  | nil =>
    simp only [mergeArgsLoop] at h
    exact .inl h
  | cons ap rest ih =>
    obtain ⟨a0, p0⟩ := ap
    cases hg : alGet args_dict a0 with
    | none =>
      rw [mergeArgsLoop_cons_none args_dict a0 p0 rest acc hg] at h
      rcases ih _ h with h1 | ⟨a, ha, hb, hc⟩
      · exact .inl h1
      · exact .inr ⟨a, List.mem_cons_of_mem _ ha, hb, hc⟩
    | some v0 =>
      cases ht : truthy v0 with
      | false =>
        rw [mergeArgsLoop_cons_falsy args_dict a0 p0 rest acc v0 hg ht] at h
        rcases ih _ h with h1 | ⟨a, ha, hb, hc⟩
        · exact .inl h1
        · exact .inr ⟨a, List.mem_cons_of_mem _ ha, hb, hc⟩
      | true =>
        rw [mergeArgsLoop_cons_truthy args_dict a0 p0 rest acc v0 hg ht] at h
        rcases ih _ h with h1 | ⟨a, ha, hb, hc⟩
        · by_cases hp : p = p0
          · subst hp
            rw [alGet_alSet_self acc p v0] at h1
            cases h1
            exact .inr ⟨a0, List.mem_cons_self _ _, hg, ht⟩
          · rw [alGet_alSet_ne acc p0 p v0 hp] at h1
            exact .inl h1
        · exact .inr ⟨a, List.mem_cons_of_mem _ ha, hb, hc⟩

theorem mergeArgsLoop_truthy_preserve (args_dict : List (String × PVal))
    (pairs : List (String × String)) (acc : List (String × PVal))
    (p : String) (v : PVal) (hacc : alGet acc p = some v)
    (ht : truthy v = true) :
    ∃ v', alGet (mergeArgsLoop args_dict pairs acc) p = some v' ∧
      truthy v' = true := by
  induction pairs generalizing acc v with
  | nil =>
    simp only [mergeArgsLoop]
    exact ⟨v, hacc, ht⟩
  | cons ap rest ih =>
    obtain ⟨a0, p0⟩ := ap
    cases hg : alGet args_dict a0 with
    | none =>
      rw [mergeArgsLoop_cons_none args_dict a0 p0 rest acc hg]
      exact ih acc v hacc ht
    | some v0 =>
      cases ht0 : truthy v0 with
      | false =>
        rw [mergeArgsLoop_cons_falsy args_dict a0 p0 rest acc v0 hg ht0]
        exact ih acc v hacc ht
      | true =>
        rw [mergeArgsLoop_cons_truthy args_dict a0 p0 rest acc v0 hg ht0]
        by_cases hp : p = p0
        · subst hp
          exact ih (alSet acc p v0) v0 (alGet_alSet_self acc p v0) ht0
        · refine ih (alSet acc p0 v0) v ?_ ht
          rw [alGet_alSet_ne acc p0 p v0 hp]
          exact hacc

theorem mergeArgsLoop_complete (args_dict : List (String × PVal))
    (pairs : List (String × String)) (acc : List (String × PVal))
    (a p : String) (v : PVal) (hmem : (a, p) ∈ pairs)
    (hg : alGet args_dict a = some v) (ht : truthy v = true) :
    ∃ v', alGet (mergeArgsLoop args_dict pairs acc) p = some v' ∧
      truthy v' = true := by
  induction pairs generalizing acc with
  | nil => cases hmem
  | cons ap rest ih =>
    obtain ⟨a0, p0⟩ := ap
    rcases List.mem_cons.mp hmem with h0 | hrest
    · cases h0
      rw [mergeArgsLoop_cons_truthy args_dict a p rest acc v hg ht]
      exact mergeArgsLoop_truthy_preserve args_dict rest (alSet acc p v) p v
        (alGet_alSet_self acc p v) ht
    · cases hg0 : alGet args_dict a0 with
      | none =>
        rw [mergeArgsLoop_cons_none args_dict a0 p0 rest acc hg0]
        exact ih _ hrest
      | some v0 =>
        cases ht0 : truthy v0 with
        | false =>
          rw [mergeArgsLoop_cons_falsy args_dict a0 p0 rest acc v0 hg0 ht0]
          exact ih _ hrest
        | true =>
          rw [mergeArgsLoop_cons_truthy args_dict a0 p0 rest acc v0 hg0 ht0]
          exact ih _ hrest

theorem mergeArgsLoop_falsy (args_dict : List (String × PVal))
    (pairs : List (String × String)) (acc : List (String × PVal))
    (hf : ∀ a p, (a, p) ∈ pairs →
      ∀ v, alGet args_dict a = some v → truthy v = false) :
    mergeArgsLoop args_dict pairs acc = acc := by
  induction pairs generalizing acc with
  | nil => simp only [mergeArgsLoop]
  | cons ap rest ih =>
    obtain ⟨a0, p0⟩ := ap
    have hrest : ∀ a p, (a, p) ∈ rest →
        ∀ v, alGet args_dict a = some v → truthy v = false :=
      fun a p hm v hv => hf a p (List.mem_cons_of_mem _ hm) v hv
    cases hg : alGet args_dict a0 with
    | none =>
      rw [mergeArgsLoop_cons_none args_dict a0 p0 rest acc hg]
      exact ih acc hrest
    | some v0 =>
      have ht0 : truthy v0 = false :=
        hf a0 p0 (List.mem_cons_self _ _) v0 hg
      rw [mergeArgsLoop_cons_falsy args_dict a0 p0 rest acc v0 hg ht0]
      exact ih acc hrest

/-! ### Finalization lemmas -/

theorem addIf_ne (c : Bool) (k k' : String) (v : PVal)
    (kw : List (String × PVal)) (h : k' ≠ k) :
    alGet (addIf c k v kw) k' = alGet kw k' := by
  unfold addIf
  split
  · exact alGet_alSet_ne kw k k' v h
  · rfl

theorem addIf_self (c : Bool) (k : String) (v : PVal)
    (kw : List (String × PVal)) (hc : c = true) :
    alGet (addIf c k v kw) k = some v := by
  subst hc
  unfold addIf
  rw [if_pos rfl]
  exact alGet_alSet_self kw k v

theorem addIf_false (c : Bool) (k : String) (v : PVal)
    (kw : List (String × PVal)) (hc : c = false) : addIf c k v kw = kw := by
  subst hc
  rfl

theorem delIf_ne (c : Bool) (k k' : String) (kw : List (String × PVal))
    (h : k' ≠ k) : alGet (delIf c k kw) k' = alGet kw k' := by
  unfold delIf
  split
  · exact alGet_alDel_ne kw k k' h
  · rfl

theorem delIf_pres_none (c : Bool) (k k' : String)
    (kw : List (String × PVal)) (hg : alGet kw k' = none) :
    alGet (delIf c k kw) k' = none := by
  unfold delIf
  split
  · exact alGet_none_of_del kw k k' hg
  · exact hg

theorem popContentTypeIf_ne (c : Bool) (kw : List (String × PVal))
    (k' : String) (h : k' ≠ "headers") :
    alGet (popContentTypeIf c kw) k' = alGet kw k' := by
  unfold popContentTypeIf
  split
  · split
    · exact alGet_alSet_ne kw "headers" k' _ h
    · rfl
  · rfl

theorem popContentTypeIf_false (c : Bool) (kw : List (String × PVal))
    (hc : c = false) : popContentTypeIf c kw = kw := by
  subst hc
  rfl

theorem popContentTypeIf_pres_none (c : Bool) (kw : List (String × PVal))
    (k' : String) (hg : alGet kw k' = none) :
    alGet (popContentTypeIf c kw) k' = none := by
  by_cases h : k' = "headers"
  · subst h
    unfold popContentTypeIf
    split
    · split
      · rename_i heq
        rw [hg] at heq
        cases heq
      · exact hg
    · exact hg
  · rw [popContentTypeIf_ne c kw k' h]
    exact hg

/-- Every key the finalization can add to the kwargs set; any other key's
absence survives finalization. -/
theorem finalizeKwargs_preserves_none (backend : Backend) (method : HMethod)
    (auth : PVal) (st : SynthState) (kw : List (String × PVal)) (k : String)
    (hg : alGet kw k = none)
    (h1 : k ≠ "files") (h2 : k ≠ "auth") (h3 : k ≠ "timeout")
    (h4 : k ≠ "data") (h5 : k ≠ "content") (h6 : k ≠ "params")
    (h7 : k ≠ "stream") (h8 : k ≠ "headers") :
    alGet (finalizeKwargs backend method auth st kw) k = none := by
  unfold finalizeKwargs
  rw [popContentTypeIf_ne _ _ _ h8]
  rw [delIf_ne _ _ _ _ h7]
  rw [addIf_ne _ _ _ _ _ h8]
  rw [addIf_ne _ _ _ _ _ h7]
  rw [addIf_ne _ _ _ _ _ h4]
  rw [addIf_ne _ _ _ _ _ h6]
  rw [addIf_ne _ _ _ _ _ h5]
  rw [addIf_ne _ _ _ _ _ h4]
  rw [addIf_ne _ _ _ _ _ h3]
  rw [addIf_ne _ _ _ _ _ h2]
  rw [addIf_ne _ _ _ _ _ h1]
  exact hg

/-! ### Claims -/

/-- An empty synthesis state (all maps empty, all scalars `None`), the state
of a call with no decorator-declared parameters. -/
def emptySynthState : SynthState :=
  ⟨[], [], [], [], [], .vnone, .vnone, .vnone⟩

/-- Claim C5 (corrected), counterexample to the claim as stated: the claim
says a stored falsy value is never conflated with absence, but storing
`False` under a key and reading it back through `get_decor` yields `None`
(the absent sentinel), not `False` — `get_decor` tests the stored value for
truthiness. -/
theorem claim_C5_counterexample :
    alGet [("stream", PVal.vbool false)] "stream" = some (PVal.vbool false) ∧
    get_decor (some [("stream", PVal.vbool false)]) "stream" = PVal.vnone :=
  ⟨rfl, rfl⟩

/-- Claim C5 (corrected, amended): for every declaration and key,
`get_decor` returns the stored value when that value is truthy, and the
absent sentinel `None` when the key is unset, the declaration carries no
metadata at all, or — conflating it with absence — when the stored value is
falsy. -/
theorem claim_C5_get_decor_read (d : List (String × PVal)) (name : String) :
    (∀ v, alGet d name = some v → truthy v = true →
      get_decor (some d) name = v) ∧
    (∀ v, alGet d name = some v → truthy v = false →
      get_decor (some d) name = PVal.vnone) ∧
    (alGet d name = none → get_decor (some d) name = PVal.vnone) ∧
    get_decor none name = PVal.vnone := by
  refine ⟨?_, ?_, ?_, rfl⟩
  · intro v hv ht
    simp [get_decor, hv, ht]
  · intro v hv ht
    simp [get_decor, hv, ht]
  · intro hv
    simp [get_decor, hv]

/-- Witness for C5: a truthy stored value (5) is returned; a falsy stored
value (False) reads as `None`. -/
theorem claim_C5_witness :
    get_decor (some [("timeout", PVal.vint 5)]) "timeout" = PVal.vint 5 ∧
    get_decor (some [("stream", PVal.vbool false)]) "stream" = PVal.vnone :=
  ⟨(claim_C5_get_decor_read [("timeout", PVal.vint 5)] "timeout").1
      (PVal.vint 5) rfl rfl,
    (claim_C5_get_decor_read [("stream", PVal.vbool false)] "stream").2.1
      (PVal.vbool false) rfl rfl⟩

/-- Claim C6 (corrected), counterexample to the claim as stated: the claim
says an entry is added for every bound value including falsy ones such as
`0`, but `__merge_args` guards the assignment with `if args_dict.get(arg):`
— a bound value of `0` contributes nothing. -/
theorem claim_C6_counterexample :
    alGet [("a", PVal.vint 0)] "a" = some (PVal.vint 0) ∧
    merge_args [("a", PVal.vint 0)] [("a", "p")] = [] ∧
    alGet (merge_args [("a", PVal.vint 0)] [("a", "p")]) "p" = none :=
  ⟨rfl, rfl, rfl⟩

/-- Claim C6 (corrected, amended): for each of the query/form/multipart
parameter sets, starting from an empty map, a declared
(argument-name, parameter-name) pair adds `parameter-name -> bound value`
exactly when the argument is present in the bound arguments with a truthy
value (later pairs naming the same parameter overwrite earlier ones);
pairs whose argument is absent — or bound to a falsy value such as `0`,
`False` or the empty string — contribute nothing. -/
theorem claim_C6_parameter_merge (args_dict : List (String × PVal))
    (args_decor : List (String × String)) :
    (∀ p v, alGet (merge_args args_dict args_decor) p = some v →
      ∃ a, (a, p) ∈ args_decor ∧ alGet args_dict a = some v ∧
        truthy v = true) ∧
    (∀ a p v, (a, p) ∈ args_decor → alGet args_dict a = some v →
      truthy v = true →
      ∃ v', alGet (merge_args args_dict args_decor) p = some v' ∧
        truthy v' = true) ∧
    ((∀ a p, (a, p) ∈ args_decor →
        ∀ v, alGet args_dict a = some v → truthy v = false) →
      merge_args args_dict args_decor = []) := by
  refine ⟨?_, ?_, ?_⟩
  · intro p v h
    rcases mergeArgsLoop_sound args_dict args_decor [] p v h with h1 | h2
    · cases h1
    · exact h2
  · intro a p v hmem hg ht
    exact mergeArgsLoop_complete args_dict args_decor [] a p v hmem hg ht
  · intro hf
    exact mergeArgsLoop_falsy args_dict args_decor [] hf

/-- Witness for C6: a truthy bound value is merged under its declared
parameter name. -/
theorem claim_C6_witness :
    ∃ v', alGet (merge_args [("x", PVal.vstr "7")] [("x", "page")]) "page" =
      some v' ∧ truthy v' = true :=
  (claim_C6_parameter_merge [("x", PVal.vstr "7")] [("x", "page")]).2.1
    "x" "page" (PVal.vstr "7") (List.mem_singleton.mpr rfl) rfl rfl

/-- Claim C7 (corrected), counterexample to the claim as stated: with a
class-level timeout of 5 and a method-level timeout of 0 declared, the
resolved timeout is the class-level 5, not the method-level 0 — the
method-level value only wins when it is truthy, because `get_decor` returns
`None` for the stored falsy `0` (`if get_decor(func, 'timeout'):`). -/
theorem claim_C7_counterexample :
    resolveTimeout (some [("timeout", PVal.vint 5)])
        (some [("timeout", PVal.vint 0)]) = PVal.vint 5 ∧
    PVal.vint 5 ≠ PVal.vint 0 := by
  refine ⟨rfl, ?_⟩
  intro h
  injection h with h'
  exact absurd h' (by decide)

/-- Claim C7 (corrected, amended): when a class-level timeout and a truthy
(e.g. nonzero) method-level timeout are declared and the call's kwargs carry
no `timeout` override, the timeout after override extraction equals the
method-level value. -/
theorem claim_C7_timeout_resolution (clsD funcD : List (String × PVal))
    (kw kw' : List (String × PVal)) (st0 st' : SynthState) (v w : PVal)
    (_hcv : alGet clsD "timeout" = some w)
    (hfv : alGet funcD "timeout" = some v) (htv : truthy v = true)
    (hst : st0.request_timeout = resolveTimeout (some clsD) (some funcD))
    (hkw : alGet kw "timeout" = none)
    (hex : extractOverrides DECOR_LIST kw st0 = .ok (kw', st')) :
    st'.request_timeout = v := by
  have hg : get_decor (some funcD) "timeout" = v := by
    simp [get_decor, hfv, htv]
  have h1 : resolveTimeout (some clsD) (some funcD) = v := by
    unfold resolveTimeout
    rw [hg]
    cases v <;> simp_all [truthy]
  have h2 := extract_timeout_invariant DECOR_LIST kw st0 kw' st' hkw hex
  rw [h2, hst, h1]

/-- The synthesis state of the C7 witness call: class timeout 5, method
timeout 3, nothing else declared. -/
def timeoutWitnessState : SynthState :=
  { emptySynthState with request_timeout := resolveTimeout (some [("timeout", PVal.vint 5)]) (some [("timeout", PVal.vint 3)]) }

/-- Witness for C7: class timeout 5, method timeout 3, no kwargs — the
resolved timeout is 3. -/
theorem claim_C7_witness : timeoutWitnessState.request_timeout = PVal.vint 3 :=
  claim_C7_timeout_resolution [("timeout", PVal.vint 5)]
    [("timeout", PVal.vint 3)] [] [] timeoutWitnessState timeoutWitnessState
    (PVal.vint 3) (PVal.vint 5) rfl rfl rfl rfl rfl rfl

/-- Claim C9 (confirmed): a reserved override key supplied with a value not
of its expected type makes the call fail with a `TypeError` identifying a
wrongly-typed key and its expected type (the first such key in
`DECOR_LIST` order; `body` has no expected type in the code — any value is
accepted for it without validation, so no `body` value can violate this). -/
theorem claim_C9_override_type_validation (kw : List (String × PVal))
    (st : SynthState)
    (hbad : ∃ d ∈ DECOR_LIST, ∃ v, alGet kw d = some v ∧
      overrideCheck d v = false) :
    ∃ d' v', d' ∈ DECOR_LIST ∧ alGet kw d' = some v' ∧
      overrideCheck d' v' = false ∧
      extractOverrides DECOR_LIST kw st =
        .error (.typeError d' (overrideExpected d')) :=
  extract_error_of_bad DECOR_LIST kw st (by decide) hbad

/-- Witness for C9: `timeout="soon"` (a string where a number is expected)
fails extraction with a `TypeError`. -/
theorem claim_C9_witness :
    ∃ d' v', d' ∈ DECOR_LIST ∧
      alGet [("timeout", PVal.vstr "soon")] d' = some v' ∧
      overrideCheck d' v' = false ∧
      extractOverrides DECOR_LIST [("timeout", PVal.vstr "soon")]
          emptySynthState =
        .error (.typeError d' (overrideExpected d')) :=
  claim_C9_override_type_validation [("timeout", PVal.vstr "soon")]
    emptySynthState ⟨"timeout", by decide, PVal.vstr "soon", rfl, rfl⟩

/-- Claim C2 (confirmed): response routing priority — an exact status-code
handler first (its result is returned), else the wildcard handler, else the
raw response when streaming was requested, else default handling; in
particular a 404 response with a registered 404 handler returns that
handler's return value. -/
theorem claim_C2_response_routing_priority (tbl : HandlerTable) (s : Bool)
    (r : Response) :
    (∀ h, handlerLookup tbl (.code r.status_code) = some h →
      routeResponse tbl s r = runHandler h r) ∧
    (handlerLookup tbl (.code r.status_code) = none →
      ∀ h, handlerLookup tbl .any = some h →
        routeResponse tbl s r = runHandler h r) ∧
    (handlerLookup tbl (.code r.status_code) = none →
      handlerLookup tbl .any = none → s = true →
      routeResponse tbl s r = .okRaw r) ∧
    (handlerLookup tbl (.code r.status_code) = none →
      handlerLookup tbl .any = none → s = false →
      routeResponse tbl s r = defaultResponseHandler r) ∧
    (∀ h v, r.status_code = 404 → handlerLookup tbl (.code 404) = some h →
      h r = .ok v → routeResponse tbl s r = .ok v) := by
  refine ⟨?_, ?_, ?_, ?_, ?_⟩
  · intro h hl
    simp [routeResponse, hl]
  · intro hl h ha
    simp [routeResponse, hl, ha]
  · intro hl ha hs
    subst hs
    simp [routeResponse, hl, ha]
  · intro hl ha hs
    subst hs
    simp [routeResponse, hl, ha]
  · intro h v h404 hl hr
    have hl' : handlerLookup tbl (.code r.status_code) = some h := by
      rw [h404]
      exact hl
    simp [routeResponse, hl', runHandler, hr]

/-- The 404 handler of the routing witnesses. -/
def witnessHandler404 : Handler := fun _ => .ok (.vstr "handled 404")

/-- A 404 response used by the routing witnesses. -/
def witnessResp404 : Response := ⟨404, [], "not found", [], .vnone⟩

/-- Witness for C2: a 404 response with a registered 404 handler returns
the handler's return value. -/
theorem claim_C2_witness :
    routeResponse [(StatusKey.code 404, witnessHandler404)] false
      witnessResp404 = .ok (.vstr "handled 404") :=
  (claim_C2_response_routing_priority
      [(StatusKey.code 404, witnessHandler404)] false witnessResp404).2.2.2.2
    witnessHandler404 (.vstr "handled 404") rfl rfl rfl

/-- With no matching handlers and no streaming, a 4xx/5xx response yields
the wrapped `raise_for_status` error. -/
theorem routeResponse_default_error (tbl : HandlerTable) (r : Response)
    (hl : handlerLookup tbl (.code r.status_code) = none)
    (ha : handlerLookup tbl .any = none)
    (hlo : 400 <= r.status_code) (hhi : r.status_code < 600) :
    routeResponse tbl false r =
      .errorWrapped (.httpStatusError r.status_code) := by
  simp [routeResponse, hl, ha, defaultResponseHandler, hlo, hhi]

/-- Claim C3 (confirmed): default handling (no exact or wildcard handler,
streaming not requested) — a 4xx/5xx status yields the wrapped `HTTPError`
carrying the status; a success status with a non-empty body decodes by
content-type (`application/json` → parsed value,
`application/octet-stream` → raw bytes, anything else → text); a success
status with an empty body yields `None` — an `ok` outcome, and not the
empty string. -/
theorem claim_C3_default_response_handling (tbl : HandlerTable)
    (r : Response)
    (hl : handlerLookup tbl (.code r.status_code) = none)
    (ha : handlerLookup tbl .any = none) :
    (400 ≤ r.status_code → r.status_code < 600 →
      routeResponse tbl false r =
        .errorWrapped (.httpStatusError r.status_code)) ∧
    (r.status_code < 400 → r.text ≠ "" →
      alGet r.headers "content-type" = some "application/json" →
      routeResponse tbl false r = .ok r.jsonVal) ∧
    (r.status_code < 400 → r.text ≠ "" →
      alGet r.headers "content-type" = some "application/octet-stream" →
      routeResponse tbl false r = .ok (.vbytes r.content)) ∧
    (r.status_code < 400 → r.text ≠ "" →
      ∀ ct, alGet r.headers "content-type" = some ct →
        ct ≠ "application/json" → ct ≠ "application/octet-stream" →
        routeResponse tbl false r = .ok (.vstr r.text)) ∧
    (r.status_code < 400 → r.text = "" →
      routeResponse tbl false r = .ok PVal.vnone ∧
        PVal.vnone ≠ PVal.vstr "") := by
  have hroute : routeResponse tbl false r = defaultResponseHandler r := by
    simp [routeResponse, hl, ha]
  refine ⟨?_, ?_, ?_, ?_, ?_⟩
  · intro hlo hhi
    exact routeResponse_default_error tbl r hl ha hlo hhi
  · intro hs ht hct
    rw [hroute]
    have hno : ¬(400 ≤ r.status_code ∧ r.status_code < 600) := by omega
    simp [defaultResponseHandler, hno, ht, hct]
  · intro hs ht hct
    rw [hroute]
    have hno : ¬(400 ≤ r.status_code ∧ r.status_code < 600) := by omega
    simp [defaultResponseHandler, hno, ht, hct]
  · intro hs ht ct hct hne1 hne2
    rw [hroute]
    have hno : ¬(400 ≤ r.status_code ∧ r.status_code < 600) := by omega
    simp [defaultResponseHandler, hno, ht, hct, hne1, hne2]
  · intro hs ht
    have hno : ¬(400 ≤ r.status_code ∧ r.status_code < 600) := by omega
    refine ⟨?_, by simp⟩
    rw [hroute]
    simp [defaultResponseHandler, hno, ht]

/-- An empty-body 204 response used by the C3 witness. -/
def witnessResp204 : Response := ⟨204, [], "", [], .vnone⟩

/-- A 404 response with a JSON body used by the C3/C4 witnesses. -/
def witnessResp404Json : Response :=
  ⟨404, [("content-type", "application/json")], "error body", [],
    .vstr "parsed"⟩

/-- Witness for C3: an empty-body 204 success yields `None` (not the empty
string), and a handlerless 404 fails with the wrapped status error. -/
theorem claim_C3_witness :
    (routeResponse [] false witnessResp204 = .ok PVal.vnone ∧
      PVal.vnone ≠ PVal.vstr "") ∧
    routeResponse [] false witnessResp404Json =
      .errorWrapped (.httpStatusError 404) :=
  ⟨(claim_C3_default_response_handling [] witnessResp204 rfl rfl).2.2.2.2
      (by decide) rfl,
    (claim_C3_default_response_handling [] witnessResp404Json rfl rfl).1
      (by decide) (by decide)⟩

/-- Claim C4 (confirmed): every exception the transport raises during
dispatch is re-raised as `HTTPErrorWrapper` carrying the original cause, as
is the `raise_for_status` error of the default handling path, so no
transport-native exception reaches the caller; an exception raised inside a
registered status handler (exact or wildcard) propagates unmodified. -/
theorem claim_C4_error_wrapping (tbl : HandlerTable) (s : Bool)
    (r : Response) :
    (∀ e, engineExchange (.error e) tbl s = .errorWrapped e) ∧
    (handlerLookup tbl (.code r.status_code) = none →
      handlerLookup tbl .any = none → 400 ≤ r.status_code →
      r.status_code < 600 →
      engineExchange (.ok r) tbl false =
        .errorWrapped (.httpStatusError r.status_code)) ∧
    (∀ h e, handlerLookup tbl (.code r.status_code) = some h →
      h r = .error e → engineExchange (.ok r) tbl s = .raised e) ∧
    (∀ h e, handlerLookup tbl (.code r.status_code) = none →
      handlerLookup tbl .any = some h → h r = .error e →
      engineExchange (.ok r) tbl s = .raised e) := by
  refine ⟨fun e => rfl, ?_, ?_, ?_⟩
  · intro hl ha hlo hhi
    show routeResponse tbl false r = _
    exact routeResponse_default_error tbl r hl ha hlo hhi
  · intro h e hl hr
    show routeResponse tbl s r = _
    simp [routeResponse, hl, runHandler, hr]
  · intro h e hl ha hr
    show routeResponse tbl s r = _
    simp [routeResponse, hl, ha, runHandler, hr]

/-- A wildcard handler that raises, used by the C4 witness. -/
def witnessRaisingHandler : Handler := fun _ => .error (.userError "boom")

/-- Witness for C4: a transport error comes back wrapped; a raising
wildcard handler's exception propagates unmodified. -/
theorem claim_C4_witness :
    engineExchange (.error (.transportError "connection refused")) [] false =
      .errorWrapped (.transportError "connection refused") ∧
    engineExchange (.ok witnessResp404Json)
        [(StatusKey.any, witnessRaisingHandler)] false =
      .raised (.userError "boom") :=
  ⟨(claim_C4_error_wrapping [] false witnessResp204).1
      (.transportError "connection refused"),
    (claim_C4_error_wrapping [(StatusKey.any, witnessRaisingHandler)] false
        witnessResp404Json).2.2.2 witnessRaisingHandler
      (.userError "boom") rfl rfl rfl⟩

/-- Lemma: `serializeBody` either forwards the body unchanged or JSON-serializes
it. -/
theorem serializeBody_cases (hp : List (String × PVal)) (body : PVal) :
    serializeBody hp body = body ∨ serializeBody hp body = jsonDumpsP body := by
  unfold serializeBody
  split
  · exact .inr rfl
  · exact .inl rfl

/-- The synthesis state reached by the C1 counterexample call before the
`body` override is extracted: a multipart parameter resolved from a
decorator and nothing else. -/
def c1StartState : SynthState :=
  { emptySynthState with multipart_parameters := [("report", PVal.vstr "data.csv")] }

/-- The C1 counterexample state after the `body` override is extracted. -/
def c1State : SynthState :=
  { c1StartState with body_content := PVal.vstr "raw body" }

/-- Claim C1 (corrected), counterexample to the claim as stated: a call with
a resolved multipart parameter and a call-time `body` override passes
validation (no error) and the finalized kwargs carry BOTH the file-part
payload (`files`) and the body payload (`data`) — the engine neither fails
validation nor lets multipart suppress the body. -/
theorem claim_C1_counterexample :
    extractOverrides DECOR_LIST [("body", PVal.vstr "raw body")]
        c1StartState = .ok ([], c1State) ∧
    alGet (finalizeKwargs Backend.requests HMethod.PUT PVal.vnone c1State [])
        "files" = some (.vdict [("report", PVal.vstr "data.csv")]) ∧
    alGet (finalizeKwargs Backend.requests HMethod.PUT PVal.vnone c1State [])
        "data" = some (PVal.vstr "raw body") :=
  ⟨rfl, by rfl, by rfl⟩

/-- Claim C1 (corrected, amended): when a call resolves non-empty multipart
parameters together with a truthy raw body (and no form parameters), no
validation failure occurs and both payloads are forwarded in the same
transport invocation: `files` carries the multipart map, and the body value
(as is, or JSON-serialized) is forwarded under `data` (or `content` for a
non-dict body on httpx); multipart takes no precedence over the body. -/
theorem claim_C1_multipart_body_both_forwarded (backend : Backend)
    (method : HMethod) (auth : PVal) (st : SynthState)
    (kw0 : List (String × PVal))
    (hm : st.multipart_parameters ≠ [])
    (hb : truthy st.body_content = true)
    (hf : st.form_parameters = []) :
    alGet (finalizeKwargs backend method auth st kw0) "files" =
      some (.vdict st.multipart_parameters) ∧
    ∃ b, (alGet (finalizeKwargs backend method auth st kw0) "data" = some b ∨
        alGet (finalizeKwargs backend method auth st kw0) "content" =
          some b) ∧
      (b = st.body_content ∨ b = jsonDumpsP st.body_content) := by
  have hm' : (!st.multipart_parameters.isEmpty) = true := by
    cases hmp : st.multipart_parameters with
    | nil => exact absurd hmp hm
    | cons a l => rfl
  have hf' : (!st.form_parameters.isEmpty) = false := by
    rw [hf]
    rfl
  constructor
  · unfold finalizeKwargs
    rw [popContentTypeIf_ne _ _ _ (by decide)]
    rw [delIf_ne _ _ _ _ (by decide)]
    rw [addIf_ne _ _ _ _ _ (by decide)]
    rw [addIf_ne _ _ _ _ _ (by decide)]
    rw [addIf_false _ _ _ _ hf']
    rw [addIf_ne _ _ _ _ _ (by decide)]
    rw [addIf_ne _ _ _ _ _ (by decide)]
    rw [addIf_ne _ _ _ _ _ (by decide)]
    rw [addIf_ne _ _ _ _ _ (by decide)]
    rw [addIf_ne _ _ _ _ _ (by decide)]
    exact addIf_self _ _ _ _ hm'
  · refine ⟨serializeBody
      (defaultHeaders (isMultipartRequest backend st.multipart_parameters kw0)
        st.header_parameters) st.body_content, ?_,
      serializeBody_cases _ _⟩
    cases hbk : backend with
    | requests =>
      left
      unfold finalizeKwargs
      rw [popContentTypeIf_ne _ _ _ (by decide)]
      rw [delIf_ne _ _ _ _ (by decide)]
      rw [addIf_ne _ _ _ _ _ (by decide)]
      rw [addIf_ne _ _ _ _ _ (by decide)]
      rw [addIf_false _ _ _ _ hf']
      rw [addIf_ne _ _ _ _ _ (by decide)]
      rw [addIf_ne _ _ _ _ _ (by decide)]
      exact addIf_self _ _ _ _ (by simp [hb])
    | httpx =>
      by_cases hd : isDictV (serializeBody
          (defaultHeaders (isMultipartRequest Backend.httpx
            st.multipart_parameters kw0) st.header_parameters)
          st.body_content) = true
      · left
        unfold finalizeKwargs
        rw [popContentTypeIf_ne _ _ _ (by decide)]
        rw [delIf_ne _ _ _ _ (by decide)]
        rw [addIf_ne _ _ _ _ _ (by decide)]
        rw [addIf_ne _ _ _ _ _ (by decide)]
        rw [addIf_false _ _ _ _ hf']
        rw [addIf_ne _ _ _ _ _ (by decide)]
        rw [addIf_ne _ _ _ _ _ (by decide)]
        exact addIf_self _ _ _ _ (by simp [hb, hd])
      · right
        unfold finalizeKwargs
        rw [popContentTypeIf_ne _ _ _ (by decide)]
        rw [delIf_ne _ _ _ _ (by decide)]
        rw [addIf_ne _ _ _ _ _ (by decide)]
        rw [addIf_ne _ _ _ _ _ (by decide)]
        rw [addIf_false _ _ _ _ hf']
        rw [addIf_ne _ _ _ _ _ (by decide)]
        exact addIf_self _ _ _ _
          (by simp [hb, Bool.not_eq_true] at hd ⊢; simp [hd])

/-- Witness for C1 (amended): the counterexample call instantiates the
amended claim — both `files` and `data` are forwarded. -/
theorem claim_C1_witness :
    alGet (finalizeKwargs Backend.requests HMethod.PUT PVal.vnone c1State [])
        "files" = some (.vdict c1State.multipart_parameters) ∧
    ∃ b, (alGet (finalizeKwargs Backend.requests HMethod.PUT PVal.vnone
          c1State []) "data" = some b ∨
        alGet (finalizeKwargs Backend.requests HMethod.PUT PVal.vnone
          c1State []) "content" = some b) ∧
      (b = c1State.body_content ∨ b = jsonDumpsP c1State.body_content) :=
  claim_C1_multipart_body_both_forwarded Backend.requests HMethod.PUT
    PVal.vnone c1State [] (by intro h; cases h) rfl rfl

/-- The synthesis state of the C8 counterexample: multipart and form
parameters both resolved, and a call-time `content` override already folded
into the headers as `content-type: text/plain`. -/
def c8State : SynthState :=
  { emptySynthState with multipart_parameters := [("f", PVal.vstr "x")], form_parameters := [("a", PVal.vstr "b")], header_parameters := [("content-type", PVal.vstr "text/plain")] }

/-- Claim C8 (corrected), counterexample to the claim as stated: on a POST
multipart request with non-empty form parameters, the forced
`application/x-www-form-urlencoded` content-type is NOT what reaches the
transport — the POST-multipart branch (`decorators.py:469-472`) pops
`content-type` from the finalized headers afterwards, so the header is
absent entirely. -/
theorem claim_C8_counterexample :
    c8State.form_parameters = [("a", PVal.vstr "b")] ∧
    alGet c8State.header_parameters "content-type" =
      some (PVal.vstr "text/plain") ∧
    alGet (finalHeaders (finalizeKwargs Backend.requests HMethod.POST
      PVal.vnone c8State [])) "content-type" = none :=
  ⟨rfl, rfl, by rfl⟩

/-- Claim C8 (corrected, amended): for every call whose resolved form
parameter map is non-empty and which is not a POST multipart request, the
content-type header in the finalized request equals
`application/x-www-form-urlencoded`, whatever content-type (e.g. a
call-time `content` override) was resolved before — the forcing is applied
after all call-time overrides. On a POST multipart request the content-type
header is instead removed from the finalized headers. -/
theorem claim_C8_form_forces_urlencoded (backend : Backend)
    (method : HMethod) (auth : PVal) (st : SynthState)
    (kw0 : List (String × PVal))
    (hf : st.form_parameters ≠ [])
    (hpm : ¬(method = HMethod.POST ∧
      isMultipartRequest backend st.multipart_parameters kw0 = true)) :
    ∃ hF, alGet (finalizeKwargs backend method auth st kw0) "headers" =
        some (.vdict hF) ∧
      hdrGet hF "content-type" =
        some (.vstr "application/x-www-form-urlencoded") := by
  have hf' : (!st.form_parameters.isEmpty) = true := by
    cases hfp : st.form_parameters with
    | nil => exact absurd hfp hf
    | cons a l => rfl
  have hpop : (decide (method = HMethod.POST) &&
      isMultipartRequest backend st.multipart_parameters kw0) = false := by
    by_cases hp : method = HMethod.POST
    · cases him : isMultipartRequest backend st.multipart_parameters kw0 with
      | false => simp
      | true => exact absurd ⟨hp, him⟩ hpm
    · simp [hp]
  simp only [finalizeKwargs, hf', eq_self_iff_true, if_true, hpop,
    Bool.and_false]
  rw [popContentTypeIf_false _ _ rfl]
  rw [delIf_ne _ _ _ _ (by decide)]
  refine ⟨_, addIf_self _ _ _ _ ?_, ?_⟩
  · cases hcase : hdrSet (defaultHeaders (isMultipartRequest backend
      st.multipart_parameters kw0) st.header_parameters) "content-type"
      (.vstr "application/x-www-form-urlencoded") with
    | nil =>
      exact absurd hcase (alSet_ne_nil _ _ _)
    | cons a l => rfl
  · exact alGet_alSet_self _ _ _

/-- The synthesis state of the C8 witness: a form parameter and a
conflicting call-time content-type, no multipart. -/
def c8WitnessState : SynthState :=
  { emptySynthState with form_parameters := [("a", PVal.vstr "b")], header_parameters := [("content-type", PVal.vstr "text/plain")] }

/-- Witness for C8 (amended): a non-multipart PUT call with form parameters
and a `text/plain` content override ends up with the urlencoded
content-type. -/
theorem claim_C8_witness :
    ∃ hF, alGet (finalizeKwargs Backend.requests HMethod.PUT PVal.vnone
        c8WitnessState []) "headers" = some (.vdict hF) ∧
      hdrGet hF "content-type" =
        some (.vstr "application/x-www-form-urlencoded") :=
  claim_C8_form_forces_urlencoded Backend.requests HMethod.PUT PVal.vnone
    c8WitnessState [] (by intro h; cases h) (by intro h; cases h.1)

/-- The synthesis state of the C10 counterexample after the `body` override
is extracted. -/
def c10State : SynthState :=
  { emptySynthState with body_content := PVal.vstr "payload" }

/-- Claim C10 (corrected), counterexample to the claim as stated: on the
httpx backend a non-dict `body` override's value reaches the transport
under the kwarg `content` — a reserved override key name that is not among
the claim's enumerated resolved fields (headers, params, data, files,
timeout, stream). -/
theorem claim_C10_counterexample :
    extractOverrides DECOR_LIST [("body", PVal.vstr "payload")]
        emptySynthState = .ok ([], c10State) ∧
    alGet (finalizeKwargs Backend.httpx HMethod.PUT PVal.vnone c10State [])
        "content" = some (PVal.vstr "payload") ∧
    alGet (finalizeKwargs Backend.httpx HMethod.PUT PVal.vnone c10State [])
        "data" = none ∧
    "content" ∈ DECOR_LIST ∧
    "content" ∉ ["headers", "params", "data", "files", "timeout", "stream"] :=
  ⟨by rfl, by rfl, by rfl, by decide, by decide⟩

/-- Claim C10 (corrected, amended): the kwargs forwarded to the transport
never contain the internal `__session` key nor any of the reserved override
keys `header`, `query`, `form`, `multipart`, `on`, `accept`, `body`: every
reserved key present in the caller's kwargs is deleted during extraction,
and its value reaches the transport only through the resolved fields
(`headers`, `params`, `data`, `content`, `files`, `timeout`, `stream`). -/
theorem claim_C10_reserved_keys_consumed (backend : Backend)
    (method : HMethod) (auth : PVal) (callerKw kw' : List (String × PVal))
    (st0 st' : SynthState) (hn : (alKeys callerKw).Nodup)
    (hex : extractOverrides DECOR_LIST (alDel callerKw "__session") st0 =
      .ok (kw', st'))
    (k : String)
    (hk : k ∈ ["__session", "header", "query", "form", "multipart", "on",
      "accept", "body"]) :
    alGet (finalizeKwargs backend method auth st' kw') k = none := by
  have hn1 : (alKeys (alDel callerKw "__session")).Nodup :=
    alDel_nodupKeys callerKw "__session" hn
  fin_cases hk
  · exact finalizeKwargs_preserves_none backend method auth st' kw'
      "__session"
      (extract_preserve_none DECOR_LIST _ st0 kw' st' "__session"
        (alGet_alDel_self_of_nodup callerKw "__session" hn) hex)
      (by decide) (by decide) (by decide) (by decide) (by decide)
      (by decide) (by decide) (by decide)
  all_goals
    exact finalizeKwargs_preserves_none backend method auth st' kw' _
      (extract_removes DECOR_LIST _ st0 kw' st' hn1 hex _ (by decide))
      (by decide) (by decide) (by decide) (by decide) (by decide)
      (by decide) (by decide) (by decide)

/-- The synthesis state of the C10 witness after its `query` override is
extracted. -/
def c10WitnessState : SynthState :=
  { emptySynthState with query_parameters := [("q", PVal.vstr "1")] }

/-- Witness for C10 (amended): a call with `__session`, a `query` override
and an unrelated extra kwarg forwards neither `__session` nor `query`. -/
theorem claim_C10_witness :
    alGet (finalizeKwargs Backend.requests HMethod.GET PVal.vnone
      c10WitnessState [("extra", PVal.vstr "kept")]) "query" = none ∧
    alGet (finalizeKwargs Backend.requests HMethod.GET PVal.vnone
      c10WitnessState [("extra", PVal.vstr "kept")]) "__session" = none :=
  ⟨claim_C10_reserved_keys_consumed Backend.requests HMethod.GET PVal.vnone
      [("__session", PVal.vint 7), ("query", PVal.vdict [("q", PVal.vstr "1")]),
        ("extra", PVal.vstr "kept")]
      [("extra", PVal.vstr "kept")] emptySynthState c10WitnessState
      (by decide) (by rfl) "query" (by decide),
    claim_C10_reserved_keys_consumed Backend.requests HMethod.GET PVal.vnone
      [("__session", PVal.vint 7), ("query", PVal.vdict [("q", PVal.vstr "1")]),
        ("extra", PVal.vstr "kept")]
      [("extra", PVal.vstr "kept")] emptySynthState c10WitnessState
      (by decide) (by rfl) "__session" (by decide)⟩

end Decorest
